import Mathlib

/-!
# Verification of the finance-assistant statement parser and payoff simulator

Shallow embedding of the core logic of the repository's
`finance_assistant` package:

* `statement_parser.py` — free-text statement parsing (`parse_statement_text`,
  `_extract_amount`, `_extract_date`, `_calculate_derived_fields`), delimited
  transaction parsing (`parse_csv_transactions`, `_standardize_transaction`)
  and categorization (`categorize_transactions`).
* `personal_finance_ai.py` — payoff/interest simulation
  (`_calculate_payoff_time`, `_calculate_total_interest`,
  `_calculate_interest_saved`, `simulate_spending_changes`).

Python strings are embedded as `List Char` (the inputs of interest are ASCII,
so Python's `str.lower` is `Char.toLower` character-wise).  Python floats are
embedded as `ℚ` (exact arithmetic) except for `_calculate_payoff_time`, whose
logarithms force `ℝ`, with `float('inf')` embedded as `⊤ : EReal`.  Python
dictionaries are embedded as association lists where the *last* binding of a
key wins, matching insertion-overwrite semantics.  Metadata fields of the
parsed record (`raw_text`, `parsed_at`, `parsing_method`) carry no logic and
are omitted from the record structure.
-/

namespace FinanceAssistant

/- Mathlib marks the kernel-friendly `Rat` operations irreducible, which stops
`decide` from evaluating concrete rational arithmetic; restore the default
reducibility for this development so concrete runs of the embedded code can be
checked by the kernel. -/
attribute [local semireducible] Rat.add Rat.sub Rat.mul Rat.inv Rat.ofScientific

/-! ## Character and string utilities -/

/-- Character class `[\d,]` used by the amount pattern `\$?([\d,]+\.?\d*)`. -/
def isDigitOrComma (c : Char) : Bool := c.isDigit || c = ','

/-- Boolean prefix test on character lists. -/
def leadsWith : List Char → List Char → Bool
  | [], _ => true
  | _ :: _, [] => false
  | a :: as, b :: bs => a = b && leadsWith as bs

/-- Boolean substring test (Python's `needle in haystack`). -/
def hasSub (n : List Char) : List Char → Bool
  | [] => leadsWith n []
  | c :: rest => leadsWith n (c :: rest) || hasSub n rest

/-- Python's `text.split(sep)` for a single-character separator:
splitting the empty string yields one empty field. -/
def splitChar (sep : Char) : List Char → List (List Char)
  | [] => [[]]
  | c :: rest =>
    match splitChar sep rest with
    | [] => [[c]]
    | h :: t => if c = sep then [] :: h :: t else (c :: h) :: t

/-- Strip characters satisfying `p` from both ends
(Python `str.strip` / `str.strip('"')`). -/
def trimBoth (p : Char → Bool) (l : List Char) : List Char :=
  ((l.dropWhile p).reverse.dropWhile p).reverse

/-- ASCII lower-casing of a string (Python `str.lower` on ASCII input). -/
def lowerL (l : List Char) : List Char := l.map Char.toLower

/-- Numeric value of a digit string, as `int` parsing does digit by digit. -/
def digitsVal (l : List Char) : ℕ :=
  l.foldl (fun a c => a * 10 + (c.toNat - 48)) 0

/-- Python `float()` restricted to the token shapes this code can feed it:
optional surrounding whitespace, optional sign, then `digits`, `digits.digits`,
`digits.` or `.digits` (at least one digit in total).  Exponents and the
`inf`/`nan` words never arise from the cleaned statement tokens and are not
modelled.  The unsigned body: -/
def pyFloatBody (t : List Char) : Option ℚ :=
  let ip := t.takeWhile Char.isDigit
  match t.drop ip.length with
  | [] => if ip.length = 0 then none else some (digitsVal ip)
  | '.' :: fp =>
    if fp.all Char.isDigit && !(ip.length = 0 && fp.length = 0) then
      some ((digitsVal ip : ℚ) + (digitsVal fp : ℚ) / 10 ^ fp.length)
    else none
  | _ => none

/-- Python `float()` on a cleaned token (see `pyFloatBody`); `none` is a
raised-and-caught `ValueError`. -/
def pyFloat (s : List Char) : Option ℚ :=
  match trimBoth Char.isWhitespace s with
  | '+' :: r => pyFloatBody r
  | '-' :: r => (pyFloatBody r).map Neg.neg
  | r => pyFloatBody r

/-! ## `StatementParser._extract_amount`

The pattern is `\$?([\d,]+\.?\d*)` and `re.findall` collects every
non-overlapping match, leftmost first.  Because `[\d,]`, `\.` and `\d` are
pairwise disjoint character classes, the regex engine's greedy matching needs
no backtracking: each anchored attempt is the deterministic scan below. -/

/-- Anchored match of the capture body `([\d,]+\.?\d*)`: returns the captured
group and the number of characters consumed. -/
def matchAmountCore (l : List Char) : Option (List Char × ℕ) :=
  if (l.takeWhile isDigitOrComma).length = 0 then none
  else
    match l.drop (l.takeWhile isDigitOrComma).length with
    | '.' :: rest2 =>
      some ((l.takeWhile isDigitOrComma) ++ '.' :: rest2.takeWhile Char.isDigit,
            (l.takeWhile isDigitOrComma).length + 1 + (rest2.takeWhile Char.isDigit).length)
    | _ => some (l.takeWhile isDigitOrComma, (l.takeWhile isDigitOrComma).length)

/-- Anchored match of the full pattern `\$?([\d,]+\.?\d*)`: a leading `$` is
consumed only together with a nonempty digit/comma run after it. -/
def matchAmountAt (l : List Char) : Option (List Char × ℕ) :=
  match l with
  | '$' :: rest => (matchAmountCore rest).map (fun p => (p.1, p.2 + 1))
  | _ => matchAmountCore l

theorem matchAmountCore_pos {l : List Char} {g : List Char} {k : ℕ}
    (h : matchAmountCore l = some (g, k)) : 1 ≤ k := by
  unfold matchAmountCore at h
  split at h
  · exact absurd h (by simp)
  · rename_i hne
    split at h <;>
    · injection h with h'
      injection h' with hg hk
      omega

theorem matchAmountAt_pos {l : List Char} {g : List Char} {k : ℕ}
    (h : matchAmountAt l = some (g, k)) : 1 ≤ k := by
  unfold matchAmountAt at h
  split at h
  · rcases hc : matchAmountCore _ with _ | ⟨g', k'⟩ <;> rw [hc] at h <;>
      simp only [Option.map_none', Option.map_some', Option.some.injEq,
        Prod.mk.injEq] at h
    obtain ⟨-, hk⟩ := h
    omega
  · exact matchAmountCore_pos h

/-- `re.findall(r'\$?([\d,]+\.?\d*)', text)`: scan left to right, at each
position attempt an anchored match; on success record the group and resume
after the consumed characters, otherwise advance one character.  The scan is
written with an explicit fuel argument so that it is structural (and hence
evaluates inside the kernel); every successful match consumes at least one
character, so fuel equal to the length of the text is always enough, which
`findAmountsFuel_irrel` below proves. -/
def findAmountsFuel : ℕ → List Char → List (List Char)
  | 0, _ => []
  | _ + 1, [] => []
  | fuel + 1, c :: rest =>
    match matchAmountAt (c :: rest) with
    | some (g, k) => g :: findAmountsFuel fuel ((c :: rest).drop k)
    | none => findAmountsFuel fuel rest

/-- All matches of the amount pattern, leftmost first. -/
def findAmounts (l : List Char) : List (List Char) := findAmountsFuel l.length l

theorem findAmountsFuel_irrel :
    ∀ (f₁ : ℕ) (f₂ : ℕ) (l : List Char), l.length ≤ f₁ → l.length ≤ f₂ →
      findAmountsFuel f₁ l = findAmountsFuel f₂ l := by
  intro f₁
  induction f₁ with
  | zero =>
    intro f₂ l h₁ _
    have : l = [] := List.length_eq_zero.mp (Nat.le_zero.mp h₁)
    subst this
    cases f₂ <;> rfl
  | succ f₁' ih =>
    intro f₂ l h₁ h₂
    cases l with
    | nil => cases f₂ <;> rfl
    | cons c rest =>
      cases f₂ with
      | zero => simp at h₂
      | succ f₂' =>
        simp only [List.length_cons, Nat.succ_le_succ_iff] at h₁ h₂
        rcases hm : matchAmountAt (c :: rest) with _ | ⟨g, k⟩
        · simp only [findAmountsFuel, hm]
          exact ih f₂' rest h₁ h₂
        · have hk := matchAmountAt_pos hm
          have hlen : ((c :: rest).drop k).length ≤ rest.length := by
            simp only [List.length_drop, List.length_cons]; omega
          simp only [findAmountsFuel, hm]
          rw [ih f₂' _ (le_trans hlen h₁) (le_trans hlen h₂)]

/-- `StatementParser._extract_amount`: take the **last** regex match, strip
thousands separators, parse as a float; an unparseable last match (for
instance a bare comma) yields `None` with no fallback to earlier matches. -/
def extract_amount (text : List Char) : Option ℚ :=
  match (findAmounts text).getLast? with
  | some g => pyFloat (g.filter (fun c => c ≠ ','))
  | none => none

example : findAmounts "previous balance: $100.00 current: $50.00".toList
    = ["100.00".toList, "50.00".toList] := by decide
example : extract_amount "previous balance: $100.00 current: $50.00".toList
    = some 50 := by decide
example : extract_amount "no numbers here".toList = none := by decide
example : extract_amount "pay 1,234.56 now".toList = some (123456 / 100) := by decide

/-! ## `StatementParser._extract_date`

Three patterns are tried in order over the whole text with `re.search`
(leftmost match): `(\d{1,2}[\/\-]\d{1,2}[\/\-]\d{4})`, the same with a
two-digit year, and the textual `(\w{3,9}\s+\d{1,2},?\s+\d{4})`.  Again the
character classes of adjacent regex pieces are disjoint (`\d` / separators,
`\w` / `\s`), so greedy matching never backtracks between alternatives and
each anchored attempt is the deterministic scan below. -/

/-- The separator class `[\/\-]`. -/
def isSep (c : Char) : Bool := c = '/' || c = '-'

/-- The word class `\w` (ASCII). -/
def isWordChar (c : Char) : Bool := c.isAlphanum || c = '_'

/-- Anchored `\d{1,2}` followed by one separator: the follow-up separator
requirement makes the greedy 2-versus-1 digit choice deterministic.  Returns
the digits, the separator and the remaining characters. -/
def numSep : List Char → Option (List Char × Char × List Char)
  | a :: b :: c :: rest =>
    if a.isDigit && b.isDigit && isSep c then some ([a, b], c, rest)
    else if a.isDigit && isSep b then some ([a], b, c :: rest)
    else none
  | [a, b] => if a.isDigit && isSep b then some ([a], b, []) else none
  | _ => none

/-- Anchored `\d{n}` (exactly `n` digits): the digits and the rest. -/
def takeDigits : ℕ → List Char → Option (List Char × List Char)
  | 0, l => some ([], l)
  | _ + 1, [] => none
  | n + 1, c :: rest =>
    if c.isDigit then (takeDigits n rest).map (fun p => (c :: p.1, p.2)) else none

/-- Anchored match of `\d{1,2}[\/\-]\d{1,2}[\/\-]\d{yearLen}`, returning the
matched substring. -/
def matchSlashDateAt (yearLen : ℕ) (l : List Char) : Option (List Char) :=
  match numSep l with
  | some (m, s₁, r₁) =>
    match numSep r₁ with
    | some (d, s₂, r₂) =>
      match takeDigits yearLen r₂ with
      | some (y, _) => some (m ++ s₁ :: (d ++ s₂ :: y))
      | none => none
    | none => none
  | none => none

/-- Anchored match of the textual pattern `(\w{3,9}\s+\d{1,2},?\s+\d{4})`
("Month Day, Year").  The `\w{3,9}` piece succeeds exactly when the maximal
word run at this position has length 3 to 9 and is followed by whitespace
(shorter greedy retries would end inside the run), and similarly for the other
pieces. -/
def matchTextDate (l : List Char) : Option (List Char) :=
  let w := l.takeWhile isWordChar
  if 3 ≤ w.length && w.length ≤ 9 then
    let r₁ := l.drop w.length
    let sp₁ := r₁.takeWhile Char.isWhitespace
    if sp₁.length = 0 then none
    else
      let r₂ := r₁.drop sp₁.length
      let day := r₂.takeWhile Char.isDigit
      if day.length = 0 || 3 ≤ day.length then none
      else
        let r₃ := r₂.drop day.length
        let comma := if r₃.headD ' ' = ',' then [','] else ([] : List Char)
        let r₄ := r₃.drop comma.length
        let sp₂ := r₄.takeWhile Char.isWhitespace
        if sp₂.length = 0 then none
        else
          match takeDigits 4 (r₄.drop sp₂.length) with
          | some (y, _) => some (w ++ sp₁ ++ day ++ comma ++ sp₂ ++ y)
          | none => none
  else none

/-- `re.search`: try an anchored match at every position, leftmost first. -/
def searchPattern (m : List Char → Option (List Char)) : List Char → Option (List Char)
  | [] => none
  | c :: rest =>
    match m (c :: rest) with
    | some g => some g
    | none => searchPattern m rest

/-- `StatementParser._extract_date`: the three patterns in order, first
pattern with a match anywhere wins; the raw matched substring is returned
(the source performs no date normalization). -/
def extract_date (text : List Char) : Option (List Char) :=
  match searchPattern (matchSlashDateAt 4) text with
  | some g => some g
  | none =>
    match searchPattern (matchSlashDateAt 2) text with
    | some g => some g
    | none => searchPattern matchTextDate text

example : extract_date "due date: 01/15/2024 ok".toList = some "01/15/2024".toList := by
  decide
example : extract_date "due 1/5/24".toList = some "1/5/24".toList := by decide
example : extract_date "January 15, 2024".toList = some "January 15, 2024".toList := by
  decide
example : extract_date "no date".toList = none := by decide

/-! ## `StatementParser.parse_statement_text`

The parsed record.  The Python code returns a dictionary; the metadata
entries `raw_text`, `parsed_at` and `parsing_method` carry no parsing logic
and are omitted.  `none` is an absent key. -/

structure StatementData where
  previous_balance : Option ℚ := none
  current_balance : Option ℚ := none
  payments : Option ℚ := none
  minimum_payment : Option ℚ := none
  interest_charged : Option ℚ := none
  due_date : Option (List Char) := none
  credit_limit : Option ℚ := none
  available_credit : Option ℚ := none
  new_charges : Option ℚ := none
  interest_rate : Option ℚ := none
deriving Repr, DecidableEq

/-- The `amount = self._extract_amount(line); if amount:` idiom: the field is
overwritten only when extraction succeeds with a Python-truthy (nonzero)
float, otherwise the old value is kept. -/
def setAmount (line : List Char) (old : Option ℚ) : Option ℚ :=
  match extract_amount line with
  | some a => if a ≠ 0 then some a else old
  | none => old

/-- The `for line in lines` body of `parse_statement_text`: one
`if`/`elif` chain; each line is assigned to at most one field category. -/
def processLine (d : StatementData) (line : List Char) : StatementData :=
  if hasSub "previous balance".toList line || hasSub "last balance".toList line then
    { d with previous_balance := setAmount line d.previous_balance }
  else if hasSub "current balance".toList line || hasSub "new balance".toList line then
    { d with current_balance := setAmount line d.current_balance }
  else if hasSub "payment".toList line && !hasSub "minimum".toList line then
    { d with payments := setAmount line d.payments }
  else if hasSub "minimum payment".toList line then
    { d with minimum_payment := setAmount line d.minimum_payment }
  else if hasSub "interest".toList line || hasSub "finance charge".toList line then
    { d with interest_charged := setAmount line d.interest_charged }
  else if hasSub "due date".toList line || hasSub "payment due".toList line then
    match extract_date line with
    | some dt => { d with due_date := some dt }
    | none => d
  else if hasSub "credit limit".toList line then
    { d with credit_limit := setAmount line d.credit_limit }
  else if hasSub "available credit".toList line then
    { d with available_credit := setAmount line d.available_credit }
  else d

/-- `StatementParser._calculate_derived_fields`: fill `new_charges` from the
balance identity (clamped at 0, with `interest_charged` defaulting to 0),
fill `available_credit` from `credit_limit - current_balance`, and estimate
`interest_rate` as `(interest_charged / previous_balance) * 12` capped at
0.30, each only when the target key is absent. -/
def calculate_derived_fields (d : StatementData) : StatementData :=
  let d₁ :=
    match d.new_charges, d.current_balance, d.previous_balance, d.payments with
    | none, some cb, some pb, some pay =>
      { d with new_charges := some (max 0 (cb - pb + pay - d.interest_charged.getD 0)) }
    | _, _, _, _ => d
  let d₂ :=
    match d₁.available_credit, d₁.credit_limit, d₁.current_balance with
    | none, some cl, some cb => { d₁ with available_credit := some (cl - cb) }
    | _, _, _ => d₁
  match d₂.interest_rate, d₂.interest_charged, d₂.previous_balance with
  | none, some ic, some pb =>
    if 0 < ic then { d₂ with interest_rate := some (min (ic / pb * 12) 0.30) } else d₂
  | _, _, _ => d₂

/-- `StatementParser.parse_statement_text`: lower-case the text, scan it line
by line, then derive missing fields.  Never fails; unmatched fields stay
absent. -/
def parse_statement_text (text : List Char) : StatementData :=
  calculate_derived_fields ((splitChar '\n' (lowerL text)).foldl processLine {})

example :
    (parse_statement_text
      "Previous Balance: $1,250.00\nPayment: $200.00\nNew Balance: $1,180.00".toList) =
    { previous_balance := some 1250, payments := some 200, current_balance := some 1180,
      new_charges := some 130 } := by decide

/-! ## `StatementParser.parse_csv_transactions`

A parsed row is a Python dictionary keyed by the lower-cased header tokens;
embedded as an association list built in insertion order, where a repeated
key overwrites (`dictGet` takes the last binding). -/

abbrev RowDict := List (List Char × List Char)

/-- Python dictionary lookup over insertion-ordered bindings: last wins. -/
def dictGet (d : RowDict) (k : List Char) : Option (List Char) :=
  d.foldl (fun acc p => if p.1 = k then some p.2 else acc) none

/-- A standardized transaction (`_standardize_transaction` output).  `amount`
is mandatory there; the other fields are optional. -/
structure Transaction where
  date : Option (List Char) := none
  merchant : Option (List Char) := none
  amount : ℚ
  category : Option (List Char) := none
  description : Option (List Char) := none
deriving Repr, DecidableEq

/-- The `field_mappings` alias table of `_standardize_transaction`. -/
def dateAliases : List (List Char) :=
  ["date".toList, "transaction date".toList, "trans date".toList]

def merchantAliases : List (List Char) :=
  ["merchant".toList, "description".toList, "vendor".toList, "payee".toList]

def amountAliases : List (List Char) :=
  ["amount".toList, "debit".toList, "credit".toList, "transaction amount".toList]

def categoryAliases : List (List Char) :=
  ["category".toList, "type".toList, "classification".toList]

def descriptionAliases : List (List Char) :=
  ["description".toList, "memo".toList, "details".toList]

/-- Cleaning of an amount token:
`value.replace('$','').replace(',','').replace('(','-').replace(')','')`. -/
def cleanAmountStr (v : List Char) : List Char :=
  ((v.filter (fun c => c ≠ '$' && c ≠ ',')).map (fun c => if c = '(' then '-' else c)).filter
    (fun c => c ≠ ')')

/-- Resolve a non-amount standard field: first alias present in the row wins
and its value is stored stripped (`str(value).strip()`). -/
def resolveStr (t : RowDict) : List (List Char) → Option (List Char)
  | [] => none
  | a :: rest =>
    match dictGet t a with
    | some v => some (trimBoth Char.isWhitespace v)
    | none => resolveStr t rest

/-- Resolve the amount field: aliases in order; a present alias whose cleaned
value does not parse as a float is skipped (`except ValueError: continue`) and
the next alias is tried. -/
def resolveAmount (t : RowDict) : List (List Char) → Option ℚ
  | [] => none
  | a :: rest =>
    match dictGet t a with
    | some v =>
      match pyFloat (cleanAmountStr v) with
      | some q => some q
      | none => resolveAmount t rest
    | none => resolveAmount t rest

/-- `StatementParser._standardize_transaction`: emit the row only if an
amount was resolved and at least one of `merchant`/`description` is present
(note `description` is itself a `merchant` alias). -/
def standardize_transaction (t : RowDict) : Option Transaction :=
  match resolveAmount t amountAliases with
  | some q =>
    if (resolveStr t merchantAliases).isSome || (resolveStr t descriptionAliases).isSome then
      some { date := resolveStr t dateAliases,
             merchant := resolveStr t merchantAliases,
             amount := q,
             category := resolveStr t categoryAliases,
             description := resolveStr t descriptionAliases }
    else none
  | none => none

/-- One data row of `parse_csv_transactions`: skip blank lines, split on
commas, strip whitespace then surrounding double quotes from each token, skip
the row on a token-count mismatch with the header, else standardize. -/
def rowToTransaction (headers : List (List Char)) (line : List Char) : Option Transaction :=
  if (trimBoth Char.isWhitespace line).isEmpty then none
  else
    let values := (splitChar ',' line).map
      (fun v => trimBoth (fun c => c = '"') (trimBoth Char.isWhitespace v))
    if values.length = headers.length then standardize_transaction (headers.zip values)
    else none

/-- `StatementParser.parse_csv_transactions`: first line is the header
(tokens stripped and lower-cased); every malformed or incomplete data row is
dropped silently. -/
def parse_csv_transactions (text : List Char) : List Transaction :=
  match splitChar '\n' (trimBoth Char.isWhitespace text) with
  | [] => []
  | headerLine :: rows =>
    let headers := (splitChar ',' headerLine).map
      (fun h => lowerL (trimBoth Char.isWhitespace h))
    rows.filterMap (rowToTransaction headers)

example :
    parse_csv_transactions
      "Date,Merchant,Amount\n01/02,Store,(12.34)\nbad,row\n01/03,Shop,9.99".toList =
    [{ date := some "01/02".toList, merchant := some "Store".toList, amount := -(1234/100) },
     { date := some "01/03".toList, merchant := some "Shop".toList, amount := 999/100 }] := by
  decide

/-! ## `StatementParser.categorize_transactions` -/

/-- The ordered `category_keywords` table; insertion order of the Python
dict literal is its iteration order, and it decides ties. -/
def categoryTable : List (List Char × List (List Char)) :=
  [("Dining & Restaurants".toList,
    ["restaurant".toList, "dining".toList, "food".toList, "cafe".toList, "pizza".toList,
     "burger".toList, "starbucks".toList]),
   ("Gas & Auto".toList,
    ["gas".toList, "shell".toList, "chevron".toList, "exxon".toList, "bp".toList,
     "auto".toList, "car".toList]),
   ("Groceries".toList,
    ["grocery".toList, "supermarket".toList, "whole foods".toList, "safeway".toList,
     "kroger".toList, "walmart".toList]),
   ("Shopping & Retail".toList,
    ["amazon".toList, "target".toList, "walmart".toList, "mall".toList, "store".toList,
     "retail".toList, "shopping".toList]),
   ("Travel".toList,
    ["airline".toList, "hotel".toList, "travel".toList, "uber".toList, "lyft".toList,
     "rental".toList, "airport".toList]),
   ("Utilities".toList,
    ["electric".toList, "gas company".toList, "water".toList, "internet".toList,
     "phone".toList, "cable".toList]),
   ("Entertainment".toList,
    ["movie".toList, "theater".toList, "netflix".toList, "spotify".toList, "game".toList,
     "entertainment".toList]),
   ("Healthcare".toList,
    ["medical".toList, "doctor".toList, "pharmacy".toList, "hospital".toList,
     "health".toList]),
   ("Other".toList, [])]

/-- Python `str.title` on ASCII text: a letter is upper-cased after a
non-letter and lower-cased otherwise. -/
def titleCaseAux : Bool → List Char → List Char
  | _, [] => []
  | prevAlpha, c :: rest =>
    if c.isAlpha then
      (if prevAlpha then c.toLower else c.toUpper) :: titleCaseAux true rest
    else c :: titleCaseAux false rest

def titleCase (l : List Char) : List Char := titleCaseAux false l

/-- The `merchant description` text the keyword scan runs on (both fields
default to the empty string and are lower-cased). -/
def textToCheck (t : Transaction) : List Char :=
  lowerL (t.merchant.getD []) ++ ' ' :: lowerL (t.description.getD [])

/-- The `for cat_name, keywords in category_keywords.items(): ... break`
loop: first category one of whose keywords occurs in the text wins; when none
matches, the initial value `'Other'` stands. -/
def categoryFirstMatch : List (List Char × List (List Char)) → List Char → List Char
  | [], _ => "Other".toList
  | (name, kws) :: rest, text =>
    if kws.any (fun kw => hasSub kw text) then name else categoryFirstMatch rest text

/-- The category resolved for one transaction: a nonempty user category is
title-cased and taken verbatim; otherwise the keyword table decides. -/
def assignedCategory (t : Transaction) : List Char :=
  let existing := lowerL (t.category.getD [])
  if !existing.isEmpty then titleCase existing
  else categoryFirstMatch categoryTable (textToCheck t)

/-- Accumulation of `abs(amount)` per category. -/
def addToCat (acc : List (List Char × ℚ)) (name : List Char) (amt : ℚ) :
    List (List Char × ℚ) :=
  if acc.any (fun p => p.1 = name) then
    acc.map (fun p => if p.1 = name then (p.1, p.2 + amt) else p)
  else acc ++ [(name, amt)]

/-- `StatementParser.categorize_transactions`. -/
def categorize_transactions (ts : List Transaction) : List (List Char × ℚ) :=
  ts.foldl (fun acc t => addToCat acc (assignedCategory t) |t.amount|) []

example : assignedCategory { merchant := some "Walmart".toList, amount := 10 }
    = "Groceries".toList := by decide
example : assignedCategory { merchant := some "Bowling".toList, amount := 10 }
    = "Other".toList := by decide
example : categorize_transactions
    [{ merchant := some "Walmart".toList, amount := -10 },
     { merchant := some "Safeway".toList, amount := 5 }]
    = [("Groceries".toList, 15)] := by decide

/-! ## `PersonalFinanceAssistant._calculate_total_interest`

The Python loop runs for at most `months` iterations; each iteration accrues
`interest = balance * monthly_rate` into the running total, updates
`balance += interest - payment` and breaks once the balance is ≤ 0.  The
embedding returns the accumulated interest together with the final balance
and the number of iterations executed, so the early-stop behaviour is
observable. -/

/-- One month of the loop body acting on the balance. -/
def interestStep (rate payment bal : ℚ) : ℚ := bal + bal * rate - payment

/-- The loop: `(total interest, final balance, iterations executed)`. -/
def totalInterestRun (rate payment : ℚ) : ℕ → ℚ → ℚ × ℚ × ℕ
  | 0, bal => (0, bal, 0)
  | n + 1, bal =>
    let interest := bal * rate
    let newBal := bal + interest - payment
    if newBal ≤ 0 then (interest, newBal, 1)
    else
      let r := totalInterestRun rate payment n newBal
      (interest + r.1, r.2.1, r.2.2 + 1)

/-- `PersonalFinanceAssistant._calculate_total_interest`: the accumulated
interest over the (possibly truncated) horizon, with
`monthly_rate = annual_rate / 12`. -/
def calculate_total_interest (balance payment annualRate : ℚ) (months : ℕ) : ℚ :=
  (totalInterestRun (annualRate / 12) payment months balance).1

/-- `PersonalFinanceAssistant._calculate_interest_saved`: interest under the
assumed 2%-of-balance minimum payment versus minimum plus the extra payment,
clamped at 0. -/
def calculate_interest_saved (balance extraPayment annualRate : ℚ) (months : ℕ) : ℚ :=
  max 0 (calculate_total_interest balance (balance * 0.02) annualRate months
    - calculate_total_interest balance (balance * 0.02 + extraPayment) annualRate months)

/-! ## `PersonalFinanceAssistant.simulate_spending_changes`

One scenario's result dictionary.  The `summary` string is presentation only
and is omitted; `none` marks keys the branch does not emit. -/

structure ScenarioResult where
  monthly_change : ℚ
  new_balance : ℚ
  total_impact : Option ℚ := none
  interest_saved : Option ℚ := none
  additional_interest : Option ℚ := none
deriving Repr, DecidableEq

/-- A requested scenario (`name`, signed `monthly_change`, horizon). -/
structure Scenario where
  name : List Char
  monthly_change : ℚ := 0
  duration_months : ℕ := 12

/-- The per-scenario body of `simulate_spending_changes`, with the statement
fields (`current_balance`, `minimum_payment`, `interest_rate`) already read
out of the statement dictionary. -/
def simulateScenario (currentBalance currentPayment interestRate monthlyChange : ℚ)
    (durationMonths : ℕ) : ScenarioResult :=
  if 0 < monthlyChange then
    let newBalance := currentBalance + monthlyChange * durationMonths
    { monthly_change := monthlyChange,
      new_balance := newBalance,
      additional_interest :=
        some (calculate_total_interest newBalance currentPayment interestRate durationMonths) }
  else
    let additionalPayment := |monthlyChange|
    let totalSaved := additionalPayment * durationMonths
    { monthly_change := monthlyChange,
      new_balance := max 0 (currentBalance - totalSaved),
      total_impact := some totalSaved,
      interest_saved :=
        some (calculate_interest_saved currentBalance additionalPayment interestRate
          durationMonths) }

/-- `PersonalFinanceAssistant.simulate_spending_changes`: independent
evaluation of each scenario, keyed by its name (the Python result is a dict;
scenarios are embedded as an ordered list of name/result pairs). -/
def simulate_spending_changes (currentBalance currentPayment interestRate : ℚ)
    (scenarios : List Scenario) : List (List Char × ScenarioResult) :=
  scenarios.map (fun s =>
    (s.name,
     simulateScenario currentBalance currentPayment interestRate s.monthly_change
       s.duration_months))

example :
    calculate_total_interest 1000 1000 (12/100) 3 = 101/10 := by decide
example :
    (simulateScenario 1000 50 (12/100) (-100) 10).interest_saved.isSome = true := by decide

/-! ## `PersonalFinanceAssistant._calculate_payoff_time`

The only genuinely real-valued function: `np.log` forces `ℝ`, and the
`float('inf')` sentinel is `⊤ : EReal`. -/

/-- `PersonalFinanceAssistant._calculate_payoff_time`. -/
noncomputable def calculate_payoff_time (balance monthlyPayment annualRate : ℝ) : EReal :=
  if monthlyPayment ≤ balance * (annualRate / 12) then ⊤
  else
    ((-Real.log (1 - balance * (annualRate / 12) / monthlyPayment)
      / Real.log (1 + annualRate / 12) : ℝ) : EReal)

/-! ## Spec-side definitions for refinement claims -/

/-- The eight label categories of `parse_statement_text`, in the spec's
fixed precedence order. -/
inductive LabelField
  | prevBal | curBal | pay | minPay | intCh | due | limit | avail
deriving DecidableEq, Repr

/-- Spec side (section 4.1 of the spec): the label tests as an explicit
ordered list of (test, outcome) rules, to be evaluated first-match-wins:
previous balance, current balance, payment (not containing "minimum"),
minimum payment, interest/finance charge, due date, credit limit, available
credit. -/
def labelRules : List ((List Char → Bool) × LabelField) :=
  [(fun l => hasSub "previous balance".toList l || hasSub "last balance".toList l, .prevBal),
   (fun l => hasSub "current balance".toList l || hasSub "new balance".toList l, .curBal),
   (fun l => hasSub "payment".toList l && !hasSub "minimum".toList l, .pay),
   (fun l => hasSub "minimum payment".toList l, .minPay),
   (fun l => hasSub "interest".toList l || hasSub "finance charge".toList l, .intCh),
   (fun l => hasSub "due date".toList l || hasSub "payment due".toList l, .due),
   (fun l => hasSub "credit limit".toList l, .limit),
   (fun l => hasSub "available credit".toList l, .avail)]

/-- First-match-wins evaluation of an ordered rule list. -/
def firstMatch : List ((List Char → Bool) × LabelField) → List Char → Option LabelField
  | [], _ => none
  | r :: rest, line => if r.1 line then some r.2 else firstMatch rest line

/-- The first matching rule of `labelRules`, if any: the spec's description
of which single field a line is assigned to. -/
def assignedField (line : List Char) : Option LabelField :=
  firstMatch labelRules line

/-- Modelled from the spec (section 3): an ISO-8601 extended calendar date
has the shape `YYYY-MM-DD`.  Used only to compare the stored due-date string
against the spec's normalization claim. -/
def iso8601Shape (s : List Char) : Bool :=
  match s with
  | [y₁, y₂, y₃, y₄, '-', m₁, m₂, '-', d₁, d₂] =>
    y₁.isDigit && y₂.isDigit && y₃.isDigit && y₄.isDigit &&
    m₁.isDigit && m₂.isDigit && d₁.isDigit && d₂.isDigit
  | _ => false

/-! ## C1 — balance-identity round trip -/

/-- C1: for a parsed statement with `previous_balance`, `current_balance`,
`payments`, `interest_charged` all known and `new_charges` absent, the
derivation step fills `new_charges = max 0 (cb - pb + pay - ic)`, and
re-substituting reproduces `current_balance` exactly — provided the clamp
did not fire, i.e. `cb - pb + pay - ic ≥ 0` (the amendment; see the
counterexample for the clamped case). -/
theorem balance_identity_round_trip (d : StatementData) (cb pb pay ic : ℚ)
    (hcb : d.current_balance = some cb) (hpb : d.previous_balance = some pb)
    (hpay : d.payments = some pay) (hic : d.interest_charged = some ic)
    (hnc : d.new_charges = none) :
    (calculate_derived_fields d).new_charges = some (max 0 (cb - pb + pay - ic)) ∧
    (0 ≤ cb - pb + pay - ic →
      pb + max 0 (cb - pb + pay - ic) - pay + ic = cb) := by
  constructor
  · unfold calculate_derived_fields
    simp only [hcb, hpb, hpay, hic, hnc, Option.getD_some]
    split <;> (try split) <;> (try split) <;> rfl
  · intro h
    rw [max_eq_right h]
    ring

/-- C1 witness: a concrete statement record where the identity value is
nonnegative; derivation and re-substitution round-trip exactly. -/
theorem balance_identity_round_trip_witness :
    (calculate_derived_fields
      { current_balance := some 130, previous_balance := some 100,
        payments := some 20, interest_charged := some 10 }).new_charges =
      some (max 0 ((130 : ℚ) - 100 + 20 - 10)) ∧
    (0 ≤ (130 : ℚ) - 100 + 20 - 10 →
      (100 : ℚ) + max 0 ((130 : ℚ) - 100 + 20 - 10) - 20 + 10 = 130) :=
  balance_identity_round_trip
    { current_balance := some 130, previous_balance := some 100,
      payments := some 20, interest_charged := some 10 }
    130 100 20 10 rfl rfl rfl rfl rfl

/-- C1 counterexample: a parseable statement (`prev 100, cur 1, pay 1,
int 1`) whose identity value is `-99`; the clamp stores `new_charges = 0`
and re-substituting gives `100`, missing `current_balance = 1` by `99` —
far beyond any rounding tolerance.  The round-trip clause of the claim is
therefore false as stated. -/
theorem balance_identity_round_trip_cx :
    (parse_statement_text
      "Previous balance: $100.00\nCurrent balance: $1.00\nPayment: $1.00\nInterest: $1.00".toList).new_charges
      = some 0 ∧
    (parse_statement_text
      "Previous balance: $100.00\nCurrent balance: $1.00\nPayment: $1.00\nInterest: $1.00".toList).current_balance
      = some 1 ∧
    (parse_statement_text
      "Previous balance: $100.00\nCurrent balance: $1.00\nPayment: $1.00\nInterest: $1.00".toList).previous_balance
      = some 100 ∧
    (parse_statement_text
      "Previous balance: $100.00\nCurrent balance: $1.00\nPayment: $1.00\nInterest: $1.00".toList).payments
      = some 1 ∧
    (parse_statement_text
      "Previous balance: $100.00\nCurrent balance: $1.00\nPayment: $1.00\nInterest: $1.00".toList).interest_charged
      = some 1 ∧
    (100 : ℚ) + 0 - 1 + 1 ≠ 1 ∧ |((100 : ℚ) + 0 - 1 + 1) - 1| = 99 := by
  refine ⟨by decide, by decide, by decide, by decide, by decide, by norm_num, by norm_num⟩

/-! ## C2 — months-to-payoff sentinel and closed form -/

/-- C2: with `balance > 0` and `annual_rate ≥ 0`, a payment that does not
exceed the first month's interest returns the `+∞` sentinel (no exception);
otherwise the closed-form amortization value is returned, and it is positive
provided `annual_rate > 0` (the amendment: at `annual_rate = 0` the formula
degenerates to `0/0`; see the counterexample). -/
theorem payoff_time_spec (b p r : ℝ) (hb : 0 < b) (hr : 0 ≤ r) :
    (p ≤ b * (r / 12) → calculate_payoff_time b p r = ⊤) ∧
    (b * (r / 12) < p →
      calculate_payoff_time b p r =
        ((-Real.log (1 - b * (r / 12) / p) / Real.log (1 + r / 12) : ℝ) : EReal) ∧
      (0 < r → 0 < -Real.log (1 - b * (r / 12) / p) / Real.log (1 + r / 12))) := by
  constructor
  · intro hle
    unfold calculate_payoff_time
    rw [if_pos hle]
  · intro hlt
    have hnle : ¬ p ≤ b * (r / 12) := not_le.mpr hlt
    have hp : 0 < p := lt_of_le_of_lt (by positivity) hlt
    constructor
    · unfold calculate_payoff_time
      rw [if_neg hnle]
    · intro hr'
      have hm : 0 < r / 12 := by positivity
      have hbm : 0 < b * (r / 12) := mul_pos hb hm
      have hx : 0 < b * (r / 12) / p := div_pos hbm hp
      have hx1 : b * (r / 12) / p < 1 := (div_lt_one hp).mpr hlt
      have hlog1 : Real.log (1 - b * (r / 12) / p) < 0 :=
        Real.log_neg (by linarith) (by linarith)
      have hlog2 : 0 < Real.log (1 + r / 12) := Real.log_pos (by linarith)
      exact div_pos (neg_pos.mpr hlog1) hlog2

/-- C2 witness: the spec's two concrete cases.  `months_to_payoff(1000, 10,
0.1899)` hits the sentinel (monthly interest `15.825 > 10`) and
`months_to_payoff(1000, 100, 0.1899)` is finite and positive. -/
theorem payoff_time_spec_witness :
    calculate_payoff_time 1000 10 0.1899 = ⊤ ∧
    0 < -Real.log (1 - 1000 * ((0.1899 : ℝ) / 12) / 100) /
      Real.log (1 + (0.1899 : ℝ) / 12) :=
  ⟨(payoff_time_spec 1000 10 0.1899 (by norm_num) (by norm_num)).1 (by norm_num),
   ((payoff_time_spec 1000 100 0.1899 (by norm_num) (by norm_num)).2
      (by norm_num)).2 (by norm_num)⟩

/-- C2 counterexample: at `annual_rate = 0` (allowed by the claim's
`annual_rate ≥ 0`) with sufficient payment, the closed form is
`-ln(1)/ln(1) = 0/0`, not a positive number (the Python float evaluates to
`nan`; under the real-division-by-zero convention the embedded value is 0,
and in either reading the claimed positivity fails). -/
theorem payoff_time_spec_cx :
    calculate_payoff_time 1000 100 0 = ((0 : ℝ) : EReal) ∧
    ¬ (0 : EReal) < calculate_payoff_time 1000 100 0 := by
  have h : calculate_payoff_time 1000 100 0 = ((0 : ℝ) : EReal) := by
    unfold calculate_payoff_time
    rw [if_neg (by norm_num)]
    rw [show (1 : ℝ) - 1000 * (0 / 12) / 100 = 1 by norm_num,
      show (1 : ℝ) + 0 / 12 = 1 by norm_num, Real.log_one]
    norm_num
  refine ⟨h, ?_⟩
  rw [h]
  simp

/-! ## C3 — iterative total-interest semantics -/

theorem totalInterestRun_steps_le (rate payment : ℚ) :
    ∀ (m : ℕ) (b : ℚ), (totalInterestRun rate payment m b).2.2 ≤ m := by
  intro m
  induction m with
  | zero => intro b; simp [totalInterestRun]
  | succ n ih =>
    intro b
    simp only [totalInterestRun]
    split
    · simp
    · simpa using Nat.succ_le_succ (ih _)

theorem totalInterestRun_nonneg (rate payment : ℚ) (hr : 0 ≤ rate) :
    ∀ (m : ℕ) (b : ℚ), 0 ≤ b → 0 ≤ (totalInterestRun rate payment m b).1 := by
  intro m
  induction m with
  | zero => intro b _; simp [totalInterestRun]
  | succ n ih =>
    intro b hb
    have hint : 0 ≤ b * rate := mul_nonneg hb hr
    simp only [totalInterestRun]
    split
    · simpa using hint
    · rename_i hpos
      have hnb : 0 ≤ b + b * rate - payment := le_of_not_le (by simpa using hpos)
      simpa using add_nonneg hint (ih _ hnb)

theorem interestStep_ge (rate payment b : ℚ) (h : payment ≤ b * rate) :
    b ≤ interestStep rate payment b := by
  unfold interestStep
  linarith

theorem totalInterestRun_insufficient (rate payment : ℚ) (hr : 0 ≤ rate) :
    ∀ (m : ℕ) (b : ℚ), 0 < b → payment ≤ b * rate →
      (totalInterestRun rate payment m b).2.2 = m ∧
      (totalInterestRun rate payment m b).2.1 = (interestStep rate payment)^[m] b := by
  intro m
  induction m with
  | zero => intro b _ _; simp [totalInterestRun]
  | succ n ih =>
    intro b hb hpay
    have hstep : b ≤ b + b * rate - payment := by linarith
    have hpos : 0 < b + b * rate - payment := lt_of_lt_of_le hb hstep
    have hpay' : payment ≤ (b + b * rate - payment) * rate :=
      le_trans hpay (mul_le_mul_of_nonneg_right hstep hr)
    have hns : ¬ b + b * rate - payment ≤ 0 := not_le.mpr hpos
    unfold totalInterestRun
    rw [if_neg hns]
    obtain ⟨h1, h2⟩ := ih (b + b * rate - payment) hpos hpay'
    refine ⟨by simpa using h1, ?_⟩
    have : (interestStep rate payment)^[n + 1] b =
        (interestStep rate payment)^[n] (interestStep rate payment b) :=
      Function.iterate_succ_apply _ _ _
    simpa [this, interestStep] using h2

theorem interestStep_iterate_invariant (rate payment b : ℚ) (hr : 0 ≤ rate)
    (hb : 0 < b) (hp : payment ≤ b * rate) :
    ∀ k, 0 < (interestStep rate payment)^[k] b ∧
      payment ≤ (interestStep rate payment)^[k] b * rate := by
  intro k
  induction k with
  | zero => exact ⟨hb, hp⟩
  | succ n ih =>
    obtain ⟨hpos, hpay⟩ := ih
    rw [Function.iterate_succ_apply']
    have hge := interestStep_ge rate payment _ hpay
    exact ⟨lt_of_lt_of_le hpos hge,
      le_trans hpay (mul_le_mul_of_nonneg_right hge hr)⟩

/-- C3: the loop of `_calculate_total_interest` runs at most `months` steps
and returns the accumulated interest, which is nonnegative for nonnegative
inputs; and when the payment does not cover the first month's interest
**and the balance is strictly positive** (the amendment: a zero balance stops
the loop at its first step, see the counterexample), no early stop occurs —
the loop runs all `months` steps, the final balance is the `months`-fold
iterate of the step `bal ↦ bal + bal·rate − payment`, and that balance
trajectory is monotonically non-decreasing. -/
theorem total_interest_iterative (b p r : ℚ) (m : ℕ)
    (hb : 0 ≤ b) (hp : 0 ≤ p) (hr : 0 ≤ r) :
    (totalInterestRun (r / 12) p m b).2.2 ≤ m ∧
    calculate_total_interest b p r m = (totalInterestRun (r / 12) p m b).1 ∧
    0 ≤ calculate_total_interest b p r m ∧
    (0 < b → p ≤ b * (r / 12) →
      (totalInterestRun (r / 12) p m b).2.2 = m ∧
      (totalInterestRun (r / 12) p m b).2.1 = (interestStep (r / 12) p)^[m] b ∧
      ∀ k, (interestStep (r / 12) p)^[k] b ≤ (interestStep (r / 12) p)^[k + 1] b) := by
  have hr12 : 0 ≤ r / 12 := by positivity
  refine ⟨totalInterestRun_steps_le _ _ _ _, rfl,
    totalInterestRun_nonneg _ _ hr12 _ _ hb, ?_⟩
  intro hb' hpay
  obtain ⟨h1, h2⟩ := totalInterestRun_insufficient (r / 12) p hr12 m b hb' hpay
  refine ⟨h1, h2, ?_⟩
  intro k
  obtain ⟨hpos, hpay'⟩ := interestStep_iterate_invariant (r / 12) p b hr12 hb' hpay k
  rw [Function.iterate_succ_apply']
  exact interestStep_ge _ _ _ hpay'

/-- C3 witness: balance 1200 at 100% APR with a 10/month payment (well below
the 100 monthly interest): two steps run with no early stop, the trajectory
is non-decreasing and the total interest is nonnegative. -/
theorem total_interest_iterative_witness :
    ((0 : ℚ) ≤ 1200 ∧ (0 : ℚ) ≤ 10 ∧ (0 : ℚ) ≤ 1 ∧ (0 : ℚ) < 1200 ∧
      (10 : ℚ) ≤ 1200 * (1 / 12)) ∧
    (totalInterestRun ((1 : ℚ) / 12) 10 2 1200).2.2 ≤ 2 ∧
    0 ≤ calculate_total_interest 1200 10 1 2 ∧
    (totalInterestRun ((1 : ℚ) / 12) 10 2 1200).2.2 = 2 ∧
    (interestStep ((1 : ℚ) / 12) 10)^[0] 1200 ≤ (interestStep ((1 : ℚ) / 12) 10)^[1] 1200 :=
  ⟨⟨by norm_num, by norm_num, by norm_num, by norm_num, by norm_num⟩,
   (total_interest_iterative 1200 10 1 2 (by norm_num) (by norm_num) (by norm_num)).1,
   (total_interest_iterative 1200 10 1 2 (by norm_num) (by norm_num) (by norm_num)).2.2.1,
   ((total_interest_iterative 1200 10 1 2 (by norm_num) (by norm_num)
      (by norm_num)).2.2.2 (by norm_num) (by norm_num)).1,
   ((total_interest_iterative 1200 10 1 2 (by norm_num) (by norm_num)
      (by norm_num)).2.2.2 (by norm_num) (by norm_num)).2.2 0⟩

/-- C3 counterexample: all inputs nonnegative and `payment ≤ balance ·
monthly_rate` (`0 ≤ 0`), yet with `balance = 0` the loop breaks at its first
step: over a 2-month horizon only 1 step executes, refuting the claimed
"no early stop" for every nonnegative balance. -/
theorem total_interest_iterative_cx :
    (0 : ℚ) ≤ 0 ∧ (0 : ℚ) ≤ 0 * ((0 : ℚ) / 12) ∧
    (totalInterestRun ((0 : ℚ) / 12) 0 2 0).2.2 = 1 ∧ (1 : ℕ) ≠ 2 := by
  refine ⟨le_refl 0, by norm_num, by decide, by norm_num⟩

/-! ## C4 — scenario sign branching -/

theorem calculate_interest_saved_nonneg (b e r : ℚ) (m : ℕ) :
    0 ≤ calculate_interest_saved b e r m :=
  le_max_left 0 _

/-- C4: a non-positive `monthly_change` produces a savings result with
`new_balance = max 0 (balance − |change|·months)` and an `interest_saved`
field equal to the clamped difference of `total_interest` at the
2%-of-balance baseline payment versus baseline + |change| over the same
horizon (hence nonnegative), and no `additional_interest`; a positive
`monthly_change` instead yields `new_balance = balance + change·months` and
an `additional_interest` field, with no `interest_saved`.  Each scenario in
a `simulate_spending_changes` call is evaluated independently by this rule. -/
theorem scenario_sign_branching (cb cp r mc : ℚ) (d : ℕ) :
    (mc ≤ 0 →
      (simulateScenario cb cp r mc d).new_balance = max 0 (cb - |mc| * d) ∧
      (simulateScenario cb cp r mc d).interest_saved =
        some (max 0 (calculate_total_interest cb (cb * (2 / 100)) r d
          - calculate_total_interest cb (cb * (2 / 100) + |mc|) r d)) ∧
      (∀ q, (simulateScenario cb cp r mc d).interest_saved = some q → 0 ≤ q) ∧
      (simulateScenario cb cp r mc d).additional_interest = none) ∧
    (0 < mc →
      (simulateScenario cb cp r mc d).new_balance = cb + mc * d ∧
      (simulateScenario cb cp r mc d).additional_interest =
        some (calculate_total_interest (cb + mc * d) cp r d) ∧
      (simulateScenario cb cp r mc d).interest_saved = none) ∧
    (∀ (scs : List Scenario), ∀ s ∈ scs,
      (s.name, simulateScenario cb cp r s.monthly_change s.duration_months)
        ∈ simulate_spending_changes cb cp r scs) := by
  have h002 : (0.02 : ℚ) = 2 / 100 := by norm_num
  refine ⟨?_, ?_, ?_⟩
  · intro h
    have hnot : ¬ 0 < mc := not_lt.mpr h
    unfold simulateScenario
    rw [if_neg hnot]
    refine ⟨rfl, ?_, ?_, rfl⟩
    · simp [calculate_interest_saved, h002]
    · intro q hq
      simp only [Option.some.injEq] at hq
      rw [← hq]
      exact calculate_interest_saved_nonneg _ _ _ _
  · intro h
    unfold simulateScenario
    rw [if_pos h]
    exact ⟨rfl, rfl, rfl⟩
  · intro scs s hs
    simp only [simulate_spending_changes, List.mem_map]
    exact ⟨s, hs, rfl⟩

/-- C4 witness: the spec's example scenario (balance 1000, change −100 over
10 months) carries `interest_saved` and the clamped `new_balance`, and the
symmetric +100 scenario carries `additional_interest` instead. -/
theorem scenario_sign_branching_witness :
    ((-100 : ℚ) ≤ 0 ∧
      (simulateScenario 1000 50 0.1899 (-100) 10).new_balance =
        max 0 (1000 - |(-100 : ℚ)| * (10 : ℕ)) ∧
      (simulateScenario 1000 50 0.1899 (-100) 10).additional_interest = none) ∧
    ((0 : ℚ) < 100 ∧
      (simulateScenario 1000 50 0.1899 100 10).new_balance = 1000 + 100 * (10 : ℕ) ∧
      (simulateScenario 1000 50 0.1899 100 10).interest_saved = none) :=
  ⟨⟨by norm_num,
    ((scenario_sign_branching 1000 50 0.1899 (-100) 10).1 (by norm_num)).1,
    ((scenario_sign_branching 1000 50 0.1899 (-100) 10).1 (by norm_num)).2.2.2⟩,
   ⟨by norm_num,
    ((scenario_sign_branching 1000 50 0.1899 100 10).2.1 (by norm_num)).1,
    ((scenario_sign_branching 1000 50 0.1899 100 10).2.1 (by norm_num)).2.2⟩⟩

/-! ## C5 — last-match-wins amount extraction -/

/-- C5: whenever the amount pattern matches at least once on a line, the
extracted value is the parse of the **last** match (comma-stripped, Python
`float`); and on the spec's concrete tie-break line, the record stores
`previous_balance = 50.00`, taken from the trailing `$50.00`. -/
theorem last_match_wins (line : List Char) (h : findAmounts line ≠ []) :
    extract_amount line =
      pyFloat (((findAmounts line).getLast h).filter (fun c => c ≠ ',')) ∧
    (parse_statement_text
      "Previous balance: $100.00 Current: $50.00".toList).previous_balance = some 50 := by
  constructor
  · unfold extract_amount
    rw [List.getLast?_eq_getLast _ h]
  · decide

/-- C5 witness: on the tie-break line itself, extraction returns the value of
the last match, `50.00`. -/
theorem last_match_wins_witness :
    findAmounts "previous balance: $100.00 current: $50.00".toList ≠ [] ∧
    extract_amount "previous balance: $100.00 current: $50.00".toList =
      pyFloat
        (((findAmounts "previous balance: $100.00 current: $50.00".toList).getLast
          (by decide)).filter (fun c => c ≠ ',')) :=
  ⟨by decide,
   (last_match_wins "previous balance: $100.00 current: $50.00".toList (by decide)).1⟩

/-! ## C6 — first-match-wins label precedence -/

/-- C6: each input line is assigned to at most one field, namely the first
matching rule of the spec's fixed order `labelRules` (previous balance,
current balance, payment without "minimum", minimum payment,
interest/finance charge, due date, credit limit, available credit); every
other field of the record is untouched.  In particular a line containing
both "payment" and "interest" (without "minimum" or an earlier label) is
recorded as `payments`, never as `interest_charged`. -/
theorem label_precedence (d : StatementData) (line : List Char) :
    ((parse_statement_text "Payment and interest: $5.00".toList).payments = some 5 ∧
     (parse_statement_text "Payment and interest: $5.00".toList).interest_charged = none) ∧
    (processLine d line).new_charges = d.new_charges ∧
    (processLine d line).interest_rate = d.interest_rate ∧
    (assignedField line = none → processLine d line = d) ∧
    (assignedField line = some .prevBal →
      (processLine d line).previous_balance = setAmount line d.previous_balance ∧
      (processLine d line).current_balance = d.current_balance ∧
      (processLine d line).payments = d.payments ∧
      (processLine d line).minimum_payment = d.minimum_payment ∧
      (processLine d line).interest_charged = d.interest_charged ∧
      (processLine d line).due_date = d.due_date ∧
      (processLine d line).credit_limit = d.credit_limit ∧
      (processLine d line).available_credit = d.available_credit) ∧
    (assignedField line = some .curBal →
      (processLine d line).current_balance = setAmount line d.current_balance ∧
      (processLine d line).previous_balance = d.previous_balance ∧
      (processLine d line).payments = d.payments ∧
      (processLine d line).minimum_payment = d.minimum_payment ∧
      (processLine d line).interest_charged = d.interest_charged ∧
      (processLine d line).due_date = d.due_date ∧
      (processLine d line).credit_limit = d.credit_limit ∧
      (processLine d line).available_credit = d.available_credit) ∧
    (assignedField line = some .pay →
      (processLine d line).payments = setAmount line d.payments ∧
      (processLine d line).previous_balance = d.previous_balance ∧
      (processLine d line).current_balance = d.current_balance ∧
      (processLine d line).minimum_payment = d.minimum_payment ∧
      (processLine d line).interest_charged = d.interest_charged ∧
      (processLine d line).due_date = d.due_date ∧
      (processLine d line).credit_limit = d.credit_limit ∧
      (processLine d line).available_credit = d.available_credit) ∧
    (assignedField line = some .minPay →
      (processLine d line).minimum_payment = setAmount line d.minimum_payment ∧
      (processLine d line).previous_balance = d.previous_balance ∧
      (processLine d line).current_balance = d.current_balance ∧
      (processLine d line).payments = d.payments ∧
      (processLine d line).interest_charged = d.interest_charged ∧
      (processLine d line).due_date = d.due_date ∧
      (processLine d line).credit_limit = d.credit_limit ∧
      (processLine d line).available_credit = d.available_credit) ∧
    (assignedField line = some .intCh →
      (processLine d line).interest_charged = setAmount line d.interest_charged ∧
      (processLine d line).previous_balance = d.previous_balance ∧
      (processLine d line).current_balance = d.current_balance ∧
      (processLine d line).payments = d.payments ∧
      (processLine d line).minimum_payment = d.minimum_payment ∧
      (processLine d line).due_date = d.due_date ∧
      (processLine d line).credit_limit = d.credit_limit ∧
      (processLine d line).available_credit = d.available_credit) ∧
    (assignedField line = some .due →
      (∀ s, extract_date line = some s → (processLine d line).due_date = some s) ∧
      (extract_date line = none → processLine d line = d) ∧
      (processLine d line).previous_balance = d.previous_balance ∧
      (processLine d line).current_balance = d.current_balance ∧
      (processLine d line).payments = d.payments ∧
      (processLine d line).minimum_payment = d.minimum_payment ∧
      (processLine d line).interest_charged = d.interest_charged ∧
      (processLine d line).credit_limit = d.credit_limit ∧
      (processLine d line).available_credit = d.available_credit) ∧
    (assignedField line = some .limit →
      (processLine d line).credit_limit = setAmount line d.credit_limit ∧
      (processLine d line).previous_balance = d.previous_balance ∧
      (processLine d line).current_balance = d.current_balance ∧
      (processLine d line).payments = d.payments ∧
      (processLine d line).minimum_payment = d.minimum_payment ∧
      (processLine d line).interest_charged = d.interest_charged ∧
      (processLine d line).due_date = d.due_date ∧
      (processLine d line).available_credit = d.available_credit) ∧
    (assignedField line = some .avail →
      (processLine d line).available_credit = setAmount line d.available_credit ∧
      (processLine d line).previous_balance = d.previous_balance ∧
      (processLine d line).current_balance = d.current_balance ∧
      (processLine d line).payments = d.payments ∧
      (processLine d line).minimum_payment = d.minimum_payment ∧
      (processLine d line).interest_charged = d.interest_charged ∧
      (processLine d line).due_date = d.due_date ∧
      (processLine d line).credit_limit = d.credit_limit) := by
  refine ⟨⟨by decide, by decide⟩, ?_⟩
  cases h₁ : (hasSub "previous balance".toList line || hasSub "last balance".toList line) with
  | true =>
    simp only [processLine, assignedField, firstMatch, labelRules, h₁]
    simp
  | false =>
  cases h₂ : (hasSub "current balance".toList line || hasSub "new balance".toList line) with
  | true =>
    simp only [processLine, assignedField, firstMatch, labelRules, h₁, h₂]
    simp
  | false =>
  cases h₃ : (hasSub "payment".toList line && !hasSub "minimum".toList line) with
  | true =>
    simp only [processLine, assignedField, firstMatch, labelRules, h₁, h₂, h₃]
    simp
  | false =>
  cases h₄ : hasSub "minimum payment".toList line with
  | true =>
    simp only [processLine, assignedField, firstMatch, labelRules, h₁, h₂, h₃, h₄]
    simp
  | false =>
  cases h₅ : (hasSub "interest".toList line || hasSub "finance charge".toList line) with
  | true =>
    simp only [processLine, assignedField, firstMatch, labelRules, h₁, h₂, h₃, h₄, h₅]
    simp
  | false =>
  cases h₆ : (hasSub "due date".toList line || hasSub "payment due".toList line) with
  | true =>
    rcases hdt : extract_date line with _ | dt <;>
    · simp only [processLine, assignedField, firstMatch, labelRules, h₁, h₂, h₃, h₄, h₅, h₆,
        hdt]
      simp
  | false =>
  cases h₇ : hasSub "credit limit".toList line with
  | true =>
    simp only [processLine, assignedField, firstMatch, labelRules, h₁, h₂, h₃, h₄, h₅, h₆, h₇]
    simp
  | false =>
  cases h₈ : hasSub "available credit".toList line with
  | true =>
    simp only [processLine, assignedField, firstMatch, labelRules, h₁, h₂, h₃, h₄, h₅, h₆, h₇,
      h₈]
    simp
  | false =>
    simp only [processLine, assignedField, firstMatch, labelRules, h₁, h₂, h₃, h₄, h₅, h₆, h₇,
      h₈]
    simp

/-- C6 witness: on the line `payment and interest: $5.00` the assigned field
is `payments` (rule 3 of the fixed order), and `interest_charged` is left
untouched on an empty record. -/
theorem label_precedence_witness :
    (assignedField "payment and interest: $5.00".toList = some .pay) ∧
    (processLine {} "payment and interest: $5.00".toList).payments =
      setAmount "payment and interest: $5.00".toList (none : Option ℚ) ∧
    (processLine {} "payment and interest: $5.00".toList).interest_charged = none :=
  ⟨by decide,
   ((label_precedence {} "payment and interest: $5.00".toList).2.2.2.2.2.2.1
      (by decide)).1,
   ((label_precedence {} "payment and interest: $5.00".toList).2.2.2.2.2.2.1
      (by decide)).2.2.2.2.1⟩

/-! ## C7 — CSV row drop rules -/

theorem length_filterMap_le_countP {α β : Type} (f : α → Option β) (p : α → Bool)
    (h : ∀ a, p a = false → f a = none) (l : List α) :
    (l.filterMap f).length ≤ l.countP p := by
  induction l with
  | nil => simp
  | cons a t ih =>
    rcases hp : p a with _ | _
    · rw [List.filterMap_cons, h a hp, List.countP_cons]
      simp only [hp]
      simpa using ih
    · rcases hf : f a with _ | b <;>
        simp [List.filterMap_cons, List.countP_cons, hp, hf] <;> omega

/-- C7: `parse_csv_transactions` is total (never raises): its output length is
bounded by the number of non-blank data rows; a row whose token count differs
from the header's is skipped; a row is emitted iff an amount resolves and at
least one of merchant/description is present; and accounting parentheses
negate the amount (`(12.34)` parses to `-12.34`). -/
theorem csv_row_rules (text : List Char) (headers : List (List Char)) (line : List Char)
    (t : RowDict) :
    (parse_csv_transactions text).length ≤
      ((splitChar '\n' (trimBoth Char.isWhitespace text)).drop 1).countP
        (fun l => !(trimBoth Char.isWhitespace l).isEmpty) ∧
    (((splitChar ',' line).map
        (fun v => trimBoth (fun c => c = '"') (trimBoth Char.isWhitespace v))).length ≠
          headers.length →
      rowToTransaction headers line = none) ∧
    ((standardize_transaction t).isSome ↔
      ((resolveAmount t amountAliases).isSome ∧
        ((resolveStr t merchantAliases).isSome ∨
          (resolveStr t descriptionAliases).isSome))) ∧
    pyFloat (cleanAmountStr "(12.34)".toList) = some (-(1234 / 100)) := by
  refine ⟨?_, ?_, ?_, by decide⟩
  · rcases hsp : splitChar '\n' (trimBoth Char.isWhitespace text) with _ | ⟨hd, rows⟩
    · simp [parse_csv_transactions, hsp]
    · simp only [parse_csv_transactions, hsp, List.drop_succ_cons, List.drop_zero]
      apply length_filterMap_le_countP
      intro a ha
      simp only [Bool.not_eq_false'] at ha
      unfold rowToTransaction
      rw [if_pos (by simp [ha])]
  · intro hne
    unfold rowToTransaction
    split
    · rfl
    · exact if_neg hne
  · unfold standardize_transaction
    rcases hA : resolveAmount t amountAliases with _ | q
    · simp
    · rcases hM : (resolveStr t merchantAliases).isSome with _ | _ <;>
        rcases hD : (resolveStr t descriptionAliases).isSome with _ | _ <;>
        simp [hM, hD]

/-- C7 witness: a concrete CSV where a malformed row is skipped, the bound
holds, a width-mismatched row maps to nothing, and a quoted amount row with
only a memo column is dropped for lack of merchant/description. -/
theorem csv_row_rules_witness :
    ((parse_csv_transactions
        "Date,Merchant,Amount\n01/02,Store,(12.34)\nbad,row\n01/03,Shop,9.99".toList).length ≤
      ((splitChar '\n' (trimBoth Char.isWhitespace
        "Date,Merchant,Amount\n01/02,Store,(12.34)\nbad,row\n01/03,Shop,9.99".toList)).drop
          1).countP (fun l => !(trimBoth Char.isWhitespace l).isEmpty)) ∧
    (((splitChar ',' "bad,row".toList).map
        (fun v => trimBoth (fun c => c = '"') (trimBoth Char.isWhitespace v))).length ≠
      (["date".toList, "merchant".toList, "amount".toList] : List (List Char)).length ∧
      rowToTransaction ["date".toList, "merchant".toList, "amount".toList] "bad,row".toList
        = none) ∧
    ((standardize_transaction [("amount".toList, "5".toList)]).isSome = false ∧
      ¬ ((resolveAmount [("amount".toList, "5".toList)] amountAliases).isSome ∧
        ((resolveStr [("amount".toList, "5".toList)] merchantAliases).isSome ∨
          (resolveStr [("amount".toList, "5".toList)] descriptionAliases).isSome))) :=
  ⟨(csv_row_rules
      "Date,Merchant,Amount\n01/02,Store,(12.34)\nbad,row\n01/03,Shop,9.99".toList
      [] [] []).1,
   ⟨by decide,
    (csv_row_rules [] ["date".toList, "merchant".toList, "amount".toList] "bad,row".toList
      []).2.1 (by decide)⟩,
   ⟨by decide,
    fun hc => by
      have := (csv_row_rules [] [] [] [("amount".toList, "5".toList)]).2.2.1.mpr hc
      rw [show (standardize_transaction [("amount".toList, "5".toList)]).isSome = false
        from by decide] at this
      exact Bool.false_ne_true this⟩⟩

/-! ## C8 — category precedence -/

theorem categoryFirstMatch_eq_find? (text : List Char) :
    ∀ tbl : List (List Char × List (List Char)),
      categoryFirstMatch tbl text =
        ((tbl.find? (fun r => r.2.any (fun kw => hasSub kw text))).map Prod.fst).getD
          "Other".toList := by
  intro tbl
  induction tbl with
  | nil => rfl
  | cons r rest ih =>
    obtain ⟨name, kws⟩ := r
    rcases hc : kws.any (fun kw => hasSub kw text) with _ | _
    · rw [List.find?_cons_of_neg _ (by simpa using hc)]
      unfold categoryFirstMatch
      rw [if_neg (by simp [hc])]
      exact ih
    · rw [List.find?_cons_of_pos _ (by simpa using hc)]
      unfold categoryFirstMatch
      rw [if_pos (by simp [hc])]
      rfl

/-- C8: a transaction without an explicit category is assigned the first
category of the fixed `categoryTable` order one of whose keywords occurs in
the case-folded `merchant description` text, and `"Other"` when none
matches; in particular merchant `Walmart` lands in `Groceries`, which
precedes `Shopping & Retail` in the table. -/
theorem category_precedence (t : Transaction) (h : t.category.getD [] = []) :
    assignedCategory t =
      ((categoryTable.find?
        (fun r => r.2.any (fun kw => hasSub kw (textToCheck t)))).map Prod.fst).getD
        "Other".toList ∧
    assignedCategory { merchant := some "Walmart".toList, amount := 10 } =
      "Groceries".toList ∧
    ("Groceries".toList : List Char) ≠ "Shopping & Retail".toList := by
  refine ⟨?_, by decide, by decide⟩
  unfold assignedCategory
  rw [h]
  simp only [lowerL, List.map_nil, List.isEmpty_nil, Bool.not_true, Bool.false_eq_true,
    if_false]
  exact categoryFirstMatch_eq_find? (textToCheck t) categoryTable

/-- C8 witness: the Walmart transaction has no category and instantiates the
first-match characterization. -/
theorem category_precedence_witness :
    ({ merchant := some "Walmart".toList, amount := 10 } : Transaction).category.getD [] = [] ∧
    assignedCategory { merchant := some "Walmart".toList, amount := 10 } =
      ((categoryTable.find?
        (fun r => r.2.any (fun kw =>
          hasSub kw (textToCheck { merchant := some "Walmart".toList, amount := 10 })))).map
            Prod.fst).getD "Other".toList :=
  ⟨by decide,
   (category_precedence { merchant := some "Walmart".toList, amount := 10 } (by decide)).1⟩

/-! ## C9 — due-date extraction order and (non-)normalization -/

theorem assignedField_due_processLine (d : StatementData) (line : List Char)
    (h : assignedField line = some .due) (s : List Char)
    (hs : extract_date line = some s) :
    (processLine d line).due_date = some s := by
  cases h₁ : (hasSub "previous balance".toList line || hasSub "last balance".toList line) with
  | true =>
    simp only [assignedField, firstMatch, labelRules, h₁] at h
    simp at h
  | false =>
  cases h₂ : (hasSub "current balance".toList line || hasSub "new balance".toList line) with
  | true =>
    simp only [assignedField, firstMatch, labelRules, h₁, h₂] at h
    simp at h
  | false =>
  cases h₃ : (hasSub "payment".toList line && !hasSub "minimum".toList line) with
  | true =>
    simp only [assignedField, firstMatch, labelRules, h₁, h₂, h₃] at h
    simp at h
  | false =>
  cases h₄ : hasSub "minimum payment".toList line with
  | true =>
    simp only [assignedField, firstMatch, labelRules, h₁, h₂, h₃, h₄] at h
    simp at h
  | false =>
  cases h₅ : (hasSub "interest".toList line || hasSub "finance charge".toList line) with
  | true =>
    simp only [assignedField, firstMatch, labelRules, h₁, h₂, h₃, h₄, h₅] at h
    simp at h
  | false =>
  cases h₆ : (hasSub "due date".toList line || hasSub "payment due".toList line) with
  | true =>
    simp only [processLine, h₁, h₂, h₃, h₄, h₅, h₆, hs]
    simp
  | false =>
    simp only [assignedField, firstMatch, labelRules, h₁, h₂, h₃, h₄, h₅, h₆] at h
    split at h <;> (try split at h) <;> simp at h

/-- C9 (amended): `_extract_date` tries, in order, `MM/DD/YYYY`, `MM/DD/YY`,
then the textual "Month Day, Year" pattern — the first pattern with a match
anywhere on the line wins — and the due-date branch stores that matched
substring **verbatim**: the source performs no ISO-8601 normalization (the
counterexample exhibits a parseable date stored in its raw `MM/DD/YYYY`
form). -/
theorem due_date_stored_raw (line : List Char) (d : StatementData) :
    (∀ g, searchPattern (matchSlashDateAt 4) line = some g → extract_date line = some g) ∧
    (searchPattern (matchSlashDateAt 4) line = none →
      ∀ g, searchPattern (matchSlashDateAt 2) line = some g → extract_date line = some g) ∧
    (searchPattern (matchSlashDateAt 4) line = none →
      searchPattern (matchSlashDateAt 2) line = none →
      extract_date line = searchPattern matchTextDate line) ∧
    (assignedField line = some .due → ∀ s, extract_date line = some s →
      (processLine d line).due_date = some s) ∧
    (parse_statement_text "Due Date: 12/31/2024".toList).due_date =
      some "12/31/2024".toList := by
  refine ⟨?_, ?_, ?_, ?_, by decide⟩
  · intro g hg
    unfold extract_date
    rw [hg]
  · intro h₀ g hg
    unfold extract_date
    rw [h₀, hg]
  · intro h₀ h₁
    unfold extract_date
    rw [h₀, h₁]
  · intro h s hs
    exact assignedField_due_processLine d line h s hs

/-- C9 witness: on the line `due date: 12/31/2024` the four-digit slash
pattern matches first and the raw match is stored as the due date. -/
theorem due_date_stored_raw_witness :
    (searchPattern (matchSlashDateAt 4) "due date: 12/31/2024".toList =
        some "12/31/2024".toList ∧
      extract_date "due date: 12/31/2024".toList = some "12/31/2024".toList) ∧
    (assignedField "due date: 12/31/2024".toList = some .due ∧
      (processLine {} "due date: 12/31/2024".toList).due_date =
        some "12/31/2024".toList) :=
  ⟨⟨by decide,
    (due_date_stored_raw "due date: 12/31/2024".toList {}).1 "12/31/2024".toList
      (by decide)⟩,
   ⟨by decide,
    (due_date_stored_raw "due date: 12/31/2024".toList {}).2.2.2.1 (by decide)
      "12/31/2024".toList (by decide)⟩⟩

/-- C9 counterexample: the due date `12/31/2024` is parseable, yet the stored
string is the raw match, which is not in ISO-8601 `YYYY-MM-DD` shape — the
claim's "normalized to ISO-8601 when parseable" is false on the code. -/
theorem due_date_stored_raw_cx :
    (parse_statement_text "Due Date: 12/31/2024".toList).due_date =
      some "12/31/2024".toList ∧
    iso8601Shape "12/31/2024".toList = false := ⟨by decide, by decide⟩

/-! ## C10 — zero amounts are treated as absent -/

theorem mem_trimBoth {p : Char → Bool} {l : List Char} {c : Char}
    (h : c ∈ trimBoth p l) : c ∈ l := by
  unfold trimBoth at h
  rw [List.mem_reverse] at h
  have h₁ := (List.dropWhile_sublist p).subset h
  rw [List.mem_reverse] at h₁
  exact (List.dropWhile_sublist p).subset h₁

theorem matchAmountCore_chars {l g : List Char} {k : ℕ}
    (h : matchAmountCore l = some (g, k)) :
    ∀ c ∈ g, isDigitOrComma c = true ∨ c = '.' := by
  unfold matchAmountCore at h
  split at h
  · exact absurd h (by simp)
  · split at h
    · injection h with h'
      injection h' with hg hk
      subst hg
      intro c hc
      simp only [List.mem_append, List.mem_cons] at hc
      rcases hc with hc | hc | hc
      · exact Or.inl (List.mem_takeWhile_imp hc)
      · exact Or.inr hc
      · have hd := List.mem_takeWhile_imp hc
        exact Or.inl (by simp [isDigitOrComma, hd])
    · injection h with h'
      injection h' with hg hk
      subst hg
      intro c hc
      exact Or.inl (List.mem_takeWhile_imp hc)

theorem matchAmountAt_chars {l g : List Char} {k : ℕ}
    (h : matchAmountAt l = some (g, k)) :
    ∀ c ∈ g, isDigitOrComma c = true ∨ c = '.' := by
  unfold matchAmountAt at h
  split at h
  · rcases hc : matchAmountCore _ with _ | ⟨g', k'⟩ <;> rw [hc] at h
    · exact absurd h (by simp)
    · simp only [Option.map_some', Option.some.injEq, Prod.mk.injEq] at h
      obtain ⟨hg, -⟩ := h
      subst hg
      exact matchAmountCore_chars hc
  · exact matchAmountCore_chars h

theorem findAmountsFuel_chars :
    ∀ (fuel : ℕ) (l : List Char), ∀ g ∈ findAmountsFuel fuel l,
      ∀ c ∈ g, isDigitOrComma c = true ∨ c = '.' := by
  intro fuel
  induction fuel with
  | zero => intro l g hg; simp [findAmountsFuel] at hg
  | succ n ih =>
    intro l g hg
    cases l with
    | nil => simp [findAmountsFuel] at hg
    | cons c rest =>
      rcases hm : matchAmountAt (c :: rest) with _ | ⟨g', k⟩ <;>
        simp only [findAmountsFuel, hm, List.mem_cons] at hg
      · exact ih rest g hg
      · rcases hg with hg | hg
        · subst hg
          exact matchAmountAt_chars hm
        · exact ih _ g hg

theorem pyFloatBody_nonneg {t : List Char} {q : ℚ} (h : pyFloatBody t = some q) :
    0 ≤ q := by
  simp only [pyFloatBody] at h
  split at h
  · split at h
    · exact absurd h (by simp)
    · injection h with h'
      subst h'
      positivity
  · split at h
    · injection h with h'
      subst h'
      positivity
    · exact absurd h (by simp)
  · exact absurd h (by simp)

theorem pyFloat_nonneg {s : List Char} {q : ℚ} (h : pyFloat s = some q)
    (hchar : ∀ c ∈ s, c ≠ '-') : 0 ≤ q := by
  unfold pyFloat at h
  split at h
  · exact pyFloatBody_nonneg h
  · rename_i r heq
    have : '-' ∈ trimBoth Char.isWhitespace s := by rw [heq]; exact List.mem_cons_self _ _
    exact absurd rfl (hchar '-' (mem_trimBoth this))
  · exact pyFloatBody_nonneg h

theorem extract_amount_nonneg {line : List Char} {a : ℚ}
    (h : extract_amount line = some a) : 0 ≤ a := by
  unfold extract_amount at h
  rcases hl : (findAmounts line).getLast? with _ | g <;> rw [hl] at h
  · exact absurd h (by simp)
  · have hmem : g ∈ findAmounts line := List.mem_of_getLast?_eq_some hl
    refine pyFloat_nonneg h ?_
    intro c hc
    have hcg : c ∈ g := List.mem_of_mem_filter hc
    rcases findAmountsFuel_chars _ _ g hmem c hcg with hd | hd
    · intro hceq
      subst hceq
      simp [isDigitOrComma] at hd
    · intro hceq
      subst hceq
      simp at hd

theorem setAmount_pos (line : List Char) (old : Option ℚ)
    (hold : ∀ v, old = some v → 0 < v) :
    ∀ v, setAmount line old = some v → 0 < v := by
  intro v hv
  unfold setAmount at hv
  split at hv
  · rename_i a ha
    split at hv
    · injection hv with hv'
      subst hv'
      rename_i hne
      exact lt_of_le_of_ne (extract_amount_nonneg ha) (Ne.symm hne)
    · exact hold v hv
  · exact hold v hv

theorem processLine_previous_balance (d : StatementData) (line : List Char) :
    (processLine d line).previous_balance = d.previous_balance ∨
    (processLine d line).previous_balance = setAmount line d.previous_balance := by
  unfold processLine
  split_ifs <;>
    first
    | (right; rfl)
    | (left; rfl)
    | (cases extract_date line <;> (left; rfl))

theorem processLine_prev_pos (d : StatementData) (line : List Char)
    (h : ∀ v, d.previous_balance = some v → 0 < v) :
    ∀ v, (processLine d line).previous_balance = some v → 0 < v := by
  intro v hv
  rcases processLine_previous_balance d line with he | he
  · exact h v (he ▸ hv)
  · exact setAmount_pos line d.previous_balance h v (he ▸ hv)

theorem foldl_processLine_prev (lines : List (List Char)) :
    ∀ d : StatementData, (∀ v, d.previous_balance = some v → 0 < v) →
      ∀ v, (lines.foldl processLine d).previous_balance = some v → 0 < v := by
  induction lines with
  | nil => intro d h; exact h
  | cons a t ih => intro d h; exact ih _ (processLine_prev_pos d a h)

theorem calculate_derived_fields_previous_balance (d : StatementData) :
    (calculate_derived_fields d).previous_balance = d.previous_balance := by
  simp only [calculate_derived_fields]
  split <;> (try split) <;> (try split) <;> (try split) <;> rfl

/-- C10: an extracted amount of exactly 0 is Python-falsy, so a label line
whose extraction yields 0 leaves the record unchanged (for the amount
categories; a due-date line stores no amount at all); consequently
`previous_balance` is strictly positive whenever present — the
interest-rate derivation never divides by zero — and parsing, being a total
function, never raises. -/
theorem zero_amount_absent (text line : List Char) (d : StatementData) :
    (assignedField line ≠ some .due → extract_amount line = some 0 →
      processLine d line = d) ∧
    (∀ v, (parse_statement_text text).previous_balance = some v → 0 < v) ∧
    (parse_statement_text "Interest charged: $0.00".toList).interest_charged = none := by
  refine ⟨?_, ?_, by decide⟩
  · intro hne h₀
    cases h₁ : (hasSub "previous balance".toList line || hasSub "last balance".toList line) with
    | true =>
      simp only [processLine, h₁, setAmount, h₀]
      simp
    | false =>
    cases h₂ : (hasSub "current balance".toList line || hasSub "new balance".toList line) with
    | true =>
      simp only [processLine, h₁, h₂, setAmount, h₀]
      simp
    | false =>
    cases h₃ : (hasSub "payment".toList line && !hasSub "minimum".toList line) with
    | true =>
      simp only [processLine, h₁, h₂, h₃, setAmount, h₀]
      simp
    | false =>
    cases h₄ : hasSub "minimum payment".toList line with
    | true =>
      simp only [processLine, h₁, h₂, h₃, h₄, setAmount, h₀]
      simp
    | false =>
    cases h₅ : (hasSub "interest".toList line || hasSub "finance charge".toList line) with
    | true =>
      simp only [processLine, h₁, h₂, h₃, h₄, h₅, setAmount, h₀]
      simp
    | false =>
    cases h₆ : (hasSub "due date".toList line || hasSub "payment due".toList line) with
    | true =>
      have hdue : assignedField line = some .due := by
        simp only [assignedField, firstMatch, labelRules, h₁, h₂, h₃, h₄, h₅, h₆]
        simp
      exact absurd hdue hne
    | false =>
    cases h₇ : hasSub "credit limit".toList line with
    | true =>
      simp only [processLine, h₁, h₂, h₃, h₄, h₅, h₆, h₇, setAmount, h₀]
      simp
    | false =>
    cases h₈ : hasSub "available credit".toList line with
    | true =>
      simp only [processLine, h₁, h₂, h₃, h₄, h₅, h₆, h₇, h₈, setAmount, h₀]
      simp
    | false =>
      simp only [processLine, h₁, h₂, h₃, h₄, h₅, h₆, h₇, h₈]
      simp
  · intro v hv
    unfold parse_statement_text at hv
    rw [calculate_derived_fields_previous_balance] at hv
    refine foldl_processLine_prev _ {} ?_ v hv
    intro v' hv'
    exact absurd hv' (by simp)

/-- C10 witness: a `$0.00` payment line leaves the empty record unchanged,
and a parsed `previous_balance` of 5 is strictly positive. -/
theorem zero_amount_absent_witness :
    (assignedField "payment: $0.00".toList ≠ some .due ∧
      extract_amount "payment: $0.00".toList = some 0 ∧
      processLine {} "payment: $0.00".toList = {}) ∧
    ((parse_statement_text "previous balance: $5.00".toList).previous_balance = some 5 ∧
      (0 : ℚ) < 5) :=
  ⟨⟨by decide, by decide,
    (zero_amount_absent [] "payment: $0.00".toList {}).1 (by decide) (by decide)⟩,
   ⟨by decide,
    (zero_amount_absent "previous balance: $5.00".toList [] {}).2.1 5 (by decide)⟩⟩

end FinanceAssistant
